import Mathlib

/-!
A shallow embedding of the `ecs-db` entity-component store (`src/main.rs`).

Modelling conventions:
* Rust `HashMap<K, V>` is modelled as an association list `List (K × V)` with
  first-occurrence lookup (`lookupA`) and in-place overwriting insert
  (`insertA`); `HashSet<i64>` built from the `entities` vector is modelled by
  `List.dedup`.  Hash iteration order is unspecified in Rust, so the model
  fixes one order; all set-level claims are stated order-insensitively.
* `i64` is modelled as `Int`, with every arithmetic step the source performs
  on an `i64` (the sums in the `Add` impl on `FieldType`, and the
  `next_id += 1` counter increment) wrapped to 64-bit two's complement by
  `wrap64`, which is release-mode Rust behaviour.
* `f64` payloads are idealised as exact rationals `ℚ`; the `i64 as f64`
  widening is modelled by the exact coercion `Int → ℚ`.
-/

namespace EcsDb

/-- First-occurrence lookup in an association list, the model of
`HashMap::get`. -/
def lookupA {α β : Type} [DecidableEq α] : List (α × β) → α → Option β
  | [], _ => none
  | (k1, v1) :: rest, k => if k1 = k then some v1 else lookupA rest k

/-- Overwriting insert in an association list, the model of
`HashMap::insert` / writing through `get_mut`: the first binding of the key
is replaced in place, and a missing key is appended at the end. -/
def insertA {α β : Type} [DecidableEq α] : List (α × β) → α → β → List (α × β)
  | [], k, v => [(k, v)]
  | (k1, v1) :: rest, k, v =>
    if k1 = k then (k, v) :: rest else (k1, v1) :: insertA rest k v

/-- Two's-complement wrap of an integer to the `i64` range; `9223372036854775808 = 2 ^ 63`
and `18446744073709551616 = 2 ^ 64`. -/
def wrap64 (x : Int) : Int :=
  (x + 9223372036854775808) % 18446744073709551616 - 9223372036854775808

/-- `enum FieldType { Integer(i64), Float(f64) }`, with `f64` idealised as `ℚ`. -/
inductive FieldType : Type where
  | Integer : Int → FieldType
  | Float : ℚ → FieldType
deriving DecidableEq

/-- The `Add` impl on `FieldType` (`fn add` in `src/main.rs`): integer sums
stay `Integer` (wrapped to `i64`), any operand being a `Float` widens the
other to floating point and tags the result `Float`. -/
def FieldType.add : FieldType → FieldType → FieldType
  | .Integer a, .Integer b => .Integer (wrap64 (a + b))
  | .Integer a, .Float x => .Float ((a : ℚ) + x)
  | .Float x, .Integer a => .Float (x + (a : ℚ))
  | .Float x, .Float y => .Float (x + y)

/-- `struct Component { fields: HashMap<String, FieldType> }`. -/
structure Component : Type where
  fields : List (String × FieldType)
deriving DecidableEq

/-- `struct Entity { components: HashMap<String, Component> }` — a transient
view, never stored. -/
structure Entity : Type where
  components : List (String × Component)
deriving DecidableEq

/-- `struct Database { next_id, entities, components }`. -/
structure Database : Type where
  next_id : Int
  entities : List Int
  components : List (String × List (Int × Component))
deriving DecidableEq

/-- `Database::add_component_to_entity`:
`self.components.entry(name).or_insert(HashMap::new()).entry(id).or_insert(component)`
— first-write-wins at the `(name, id)` slot. -/
def Database.add_component_to_entity (db : Database) (entity_id : Int)
    (component_name : String) (component : Component) : Database :=
  let inner := (lookupA db.components component_name).getD []
  let inner2 :=
    match lookupA inner entity_id with
    | some _ => inner
    | none => insertA inner entity_id component
  { db with components := insertA db.components component_name inner2 }

/-- `Database::add_entity`: allocate `next_id` (post-increment on `i64`, so
the counter wraps at `2^63`), attach every supplied component under the new
id, push the id on `entities`, return it. -/
def Database.add_entity (db : Database) (component_hash : List (String × Component)) :
    Int × Database :=
  let entity_id := db.next_id
  let db1 : Database := { db with next_id := wrap64 (db.next_id + 1) }
  let db2 := component_hash.foldl
    (fun d p => d.add_component_to_entity entity_id p.1 p.2) db1
  (entity_id, { db2 with entities := db2.entities ++ [entity_id] })

/-- The loop body of `Database::get_entity`: walk the category registry and
collect, for each category holding an entry for `entity_id`, a copy of that
component. -/
def getEntityComponents (entity_id : Int) :
    List (String × List (Int × Component)) → List (String × Component) →
    List (String × Component)
  | [], acc => acc
  | (component_name, component_index) :: rest, acc =>
    match lookupA component_index entity_id with
    | some component =>
        getEntityComponents entity_id rest (insertA acc component_name component)
    | none => getEntityComponents entity_id rest acc

/-- `Database::get_entity`: materialise the view of one id. -/
def Database.get_entity (db : Database) (entity_id : Int) : Entity :=
  { components := getEntityComponents entity_id db.components [] }

/-- One iteration of the filtering loop in
`Database::get_entities_with_components`: a registered name intersects the
candidate set with the ids of its category, an unregistered name clears it. -/
def queryStep (db : Database) (ids : List Int) (component_name : String) : List Int :=
  match lookupA db.components component_name with
  | some component_hash => ids.filter (fun id => (lookupA component_hash id).isSome)
  | none => []

/-- The candidate-id computation of `Database::get_entities_with_components`:
start from the set of all ids in `entities` (a `HashSet`, modelled by
`dedup`) and run every requested name through `queryStep`. -/
def queryIds (db : Database) (component_names : List String) : List Int :=
  component_names.foldl (queryStep db) db.entities.dedup

/-- `Database::get_entities_with_components`: materialise a view for every
surviving candidate id. -/
def Database.get_entities_with_components (db : Database)
    (component_names : List String) : List Entity :=
  (queryIds db component_names).map db.get_entity

/-- `Database::update_component_field`: fails (`false`, no change) when the
category is unregistered or the id has no component there; otherwise
overwrites the field unconditionally and returns `true`. -/
def Database.update_component_field (db : Database) (entity_id : Int)
    (component_name field : String) (value : FieldType) : Bool × Database :=
  match lookupA db.components component_name with
  | some component_hash =>
    match lookupA component_hash entity_id with
    | some component =>
        let comp2 : Component := { fields := insertA component.fields field value }
        let inner2 := insertA component_hash entity_id comp2
        (true, { db with components := insertA db.components component_name inner2 })
    | none => (false, db)
  | none => (false, db)

/-- `Database::get_component_field_value`: the three-level lookup. -/
def Database.get_component_field_value (db : Database) (entity_id : Int)
    (component_name field : String) : Option FieldType :=
  match lookupA db.components component_name with
  | some component_hash =>
    match lookupA component_hash entity_id with
    | some component =>
      match lookupA component.fields field with
      | some v => some v
      | none => none
    | none => none
  | none => none

/-- `Database::increment_component_field`: read, combine, write back. -/
def Database.increment_component_field (db : Database) (entity_id : Int)
    (component_name field : String) (value : FieldType) : Bool × Database :=
  match db.get_component_field_value entity_id component_name field with
  | some current_value =>
      db.update_component_field entity_id component_name field
        (current_value.add value)
  | none => (false, db)

/-- Well-formedness that every `Rust` store enjoys by construction: the
category registry, being a `HashMap`, has no duplicate keys. -/
def WFcomponents (db : Database) : Prop :=
  (db.components.map Prod.fst).Nodup

instance (db : Database) : Decidable (WFcomponents db) := by
  unfold WFcomponents; infer_instance

/-- The store `main` starts from: counter 1, no ids, empty registry. -/
def initialDb : Database := { next_id := 1, entities := [], components := [] }

/-- The mutating public operations, for reachability statements. -/
inductive Op : Type where
  | addEntity : List (String × Component) → Op
  | attach : Int → String → Component → Op
  | updateField : Int → String → String → FieldType → Op
  | incrementField : Int → String → String → FieldType → Op

/-- Run a list of operations from a state, collecting the ids returned by
`add_entity` in call order. -/
def runFrom : Database × List Int → List Op → Database × List Int
  | s, [] => s
  | (db, acc), op :: rest =>
    match op with
    | .addEntity cs =>
        let r := db.add_entity cs
        runFrom (r.2, acc ++ [r.1]) rest
    | .attach id n c => runFrom (db.add_component_to_entity id n c, acc) rest
    | .updateField id n f v =>
        runFrom ((db.update_component_field id n f v).2, acc) rest
    | .incrementField id n f v =>
        runFrom ((db.increment_component_field id n f v).2, acc) rest

/-- Run a list of operations from the initial store. -/
def run (ops : List Op) : Database × List Int := runFrom (initialDb, []) ops

/-- Number of `add_entity` calls in an operation list. -/
def countAdds : List Op → Nat
  | [] => 0
  | Op.addEntity _ :: rest => countAdds rest + 1
  | Op.attach _ _ _ :: rest => countAdds rest
  | Op.updateField _ _ _ _ :: rest => countAdds rest
  | Op.incrementField _ _ _ _ :: rest => countAdds rest

/-- The sample `position` component of the demonstration driver. -/
def posComp : Component :=
  { fields := [("x", FieldType.Float 0), ("y", FieldType.Float 0)] }

/-- The store of the demonstration driver after its two `add_entity` calls. -/
def sampleDb : Database :=
  { next_id := 3, entities := [1, 2], components := [("position", [(1, posComp)])] }

/-- A second sample component, distinct from `posComp`. -/
def otherComp : Component :=
  { fields := [("x", FieldType.Integer 9)] }

/-- The store produced by a successful `update_component_field`. -/
def updatedDb (db : Database) (entity_id : Int) (component_name field : String)
    (value : FieldType) (inner : List (Int × Component)) (c : Component) : Database :=
  Database.mk db.next_id db.entities
    (insertA db.components component_name
      (insertA inner entity_id (Component.mk (insertA c.fields field value))))

/-- The ids `1, 2, …, k` that a fresh store hands out for its first `k`
entities. -/
def idsUpTo (k : Nat) : List Int :=
  (List.range k).map (fun i : Nat => (i : Int) + 1)

/-- `db2` differs from `db` at most in the `field` entry of the component
stored under `(component_name, entity_id)`: the counter, the creation-order
list, every other category, every other id of the category and every other
field of the component are untouched. -/
def FrameOnly (db db2 : Database) (entity_id : Int) (component_name field : String) : Prop :=
  db2.next_id = db.next_id ∧ db2.entities = db.entities ∧
  (∀ n, n ≠ component_name → lookupA db2.components n = lookupA db.components n) ∧
  (∀ i, i ≠ entity_id →
    lookupA ((lookupA db2.components component_name).getD []) i
      = lookupA ((lookupA db.components component_name).getD []) i) ∧
  (∀ f2, f2 ≠ field →
    db2.get_component_field_value entity_id component_name f2
      = db.get_component_field_value entity_id component_name f2)

/-! ### Association-list lemmas -/

theorem lookupA_insertA_self {α β : Type} [DecidableEq α] (l : List (α × β)) (k : α) (v : β) :
    lookupA (insertA l k v) k = some v := by
  induction l with
  | nil => simp [insertA, lookupA]
  | cons p rest ih =>
    obtain ⟨k1, v1⟩ := p
    by_cases h : k1 = k
    · simp [insertA, h, lookupA]
    · simp [insertA, h, lookupA, ih]

theorem lookupA_insertA_ne {α β : Type} [DecidableEq α] (l : List (α × β)) (k k2 : α) (v : β)
    (h : k2 ≠ k) : lookupA (insertA l k v) k2 = lookupA l k2 := by
  have hk : k ≠ k2 := Ne.symm h
  induction l with
  | nil => simp [insertA, lookupA, hk]
  | cons p rest ih =>
    obtain ⟨k1, v1⟩ := p
    by_cases h1 : k1 = k
    · subst h1
      simp [insertA, lookupA, hk]
    · simp [insertA, lookupA, h1, ih]

theorem insertA_of_lookupA_eq {α β : Type} [DecidableEq α] (l : List (α × β)) (k : α) (v : β)
    (h : lookupA l k = some v) : insertA l k v = l := by
  induction l with
  | nil => simp [lookupA] at h
  | cons p rest ih =>
    obtain ⟨k1, v1⟩ := p
    by_cases h1 : k1 = k
    · subst h1
      simp [lookupA] at h
      simp [insertA, h]
    · simp [lookupA, h1] at h
      simp [insertA, h1, ih h]

theorem lookupA_eq_none_of_not_mem {α β : Type} [DecidableEq α] (l : List (α × β)) (k : α)
    (h : k ∉ l.map Prod.fst) : lookupA l k = none := by
  induction l with
  | nil => rfl
  | cons p rest ih =>
    obtain ⟨k1, v1⟩ := p
    rw [List.map_cons, List.mem_cons] at h
    push_neg at h
    have h1 : k1 ≠ k := Ne.symm h.1
    simp [lookupA, h1, ih h.2]

theorem insertA_cons_self {α β : Type} [DecidableEq α] (rest : List (α × β)) (k : α)
    (v1 v : β) : insertA ((k, v1) :: rest) k v = (k, v) :: rest := by
  simp [insertA]

theorem insertA_cons_ne {α β : Type} [DecidableEq α] (rest : List (α × β)) (k k1 : α)
    (v1 v : β) (h1 : k1 ≠ k) :
    insertA ((k1, v1) :: rest) k v = (k1, v1) :: insertA rest k v := by
  simp [insertA, h1]

theorem mem_fst_insertA {α β : Type} [DecidableEq α] (l : List (α × β)) (k a : α) (v : β) :
    a ∈ (insertA l k v).map Prod.fst ↔ a ∈ l.map Prod.fst ∨ a = k := by
  induction l with
  | nil => simp [insertA]
  | cons p rest ih =>
    obtain ⟨k1, v1⟩ := p
    by_cases h1 : k1 = k
    · subst h1
      rw [insertA_cons_self]
      simp only [List.map_cons, List.mem_cons]
      tauto
    · rw [insertA_cons_ne rest k k1 v1 v h1]
      simp only [List.map_cons, List.mem_cons, ih]
      tauto

theorem nodup_fst_insertA {α β : Type} [DecidableEq α] (l : List (α × β)) (k : α) (v : β)
    (h : (l.map Prod.fst).Nodup) : ((insertA l k v).map Prod.fst).Nodup := by
  induction l with
  | nil => simp [insertA]
  | cons p rest ih =>
    obtain ⟨k1, v1⟩ := p
    rw [List.map_cons, List.nodup_cons] at h
    by_cases h1 : k1 = k
    · subst h1
      rw [insertA_cons_self, List.map_cons, List.nodup_cons]
      exact h
    · rw [insertA_cons_ne rest k k1 v1 v h1, List.map_cons, List.nodup_cons]
      refine ⟨?_, ih h.2⟩
      intro hmem
      rcases (mem_fst_insertA rest k k1 v).mp hmem with hm | hm
      · exact h.1 hm
      · exact h1 hm

/-! ### Normal forms of the store operations -/

theorem get_field_eq (db : Database) (entity_id : Int) (component_name field : String) :
    db.get_component_field_value entity_id component_name field =
      (lookupA db.components component_name).bind
        (fun inner => (lookupA inner entity_id).bind (fun c => lookupA c.fields field)) := by
  cases h1 : lookupA db.components component_name with
  | none => simp [Database.get_component_field_value, h1]
  | some inner =>
    cases h2 : lookupA inner entity_id with
    | none => simp [Database.get_component_field_value, h1, h2]
    | some c =>
      cases h3 : lookupA c.fields field with
      | none => simp [Database.get_component_field_value, h1, h2, h3]
      | some v => simp [Database.get_component_field_value, h1, h2, h3]

theorem update_success (db : Database) (entity_id : Int) (component_name field : String)
    (value : FieldType) (inner : List (Int × Component)) (c : Component)
    (h1 : lookupA db.components component_name = some inner)
    (h2 : lookupA inner entity_id = some c) :
    db.update_component_field entity_id component_name field value =
      (true, updatedDb db entity_id component_name field value inner c) := by
  simp [Database.update_component_field, h1, h2, updatedDb]

theorem update_fail_outer (db : Database) (entity_id : Int) (component_name field : String)
    (value : FieldType) (h1 : lookupA db.components component_name = none) :
    db.update_component_field entity_id component_name field value = (false, db) := by
  simp [Database.update_component_field, h1]

theorem update_fail_inner (db : Database) (entity_id : Int) (component_name field : String)
    (value : FieldType) (inner : List (Int × Component))
    (h1 : lookupA db.components component_name = some inner)
    (h2 : lookupA inner entity_id = none) :
    db.update_component_field entity_id component_name field value = (false, db) := by
  simp [Database.update_component_field, h1, h2]

theorem attach_entities (db : Database) (entity_id : Int) (component_name : String)
    (c : Component) :
    (db.add_component_to_entity entity_id component_name c).entities = db.entities := rfl

theorem attach_next_id (db : Database) (entity_id : Int) (component_name : String)
    (c : Component) :
    (db.add_component_to_entity entity_id component_name c).next_id = db.next_id := rfl

theorem update_entities (db : Database) (entity_id : Int) (component_name field : String)
    (value : FieldType) :
    ((db.update_component_field entity_id component_name field value).2).entities
      = db.entities := by
  cases h1 : lookupA db.components component_name with
  | none => simp [Database.update_component_field, h1]
  | some inner =>
    cases h2 : lookupA inner entity_id with
    | none => simp [Database.update_component_field, h1, h2]
    | some c => simp [Database.update_component_field, h1, h2]

theorem update_next_id (db : Database) (entity_id : Int) (component_name field : String)
    (value : FieldType) :
    ((db.update_component_field entity_id component_name field value).2).next_id
      = db.next_id := by
  cases h1 : lookupA db.components component_name with
  | none => simp [Database.update_component_field, h1]
  | some inner =>
    cases h2 : lookupA inner entity_id with
    | none => simp [Database.update_component_field, h1, h2]
    | some c => simp [Database.update_component_field, h1, h2]

theorem increment_entities (db : Database) (entity_id : Int) (component_name field : String)
    (value : FieldType) :
    ((db.increment_component_field entity_id component_name field value).2).entities
      = db.entities := by
  cases h : db.get_component_field_value entity_id component_name field with
  | none => simp [Database.increment_component_field, h]
  | some v =>
    simp only [Database.increment_component_field, h]
    exact update_entities db entity_id component_name field (v.add value)

theorem increment_next_id (db : Database) (entity_id : Int) (component_name field : String)
    (value : FieldType) :
    ((db.increment_component_field entity_id component_name field value).2).next_id
      = db.next_id := by
  cases h : db.get_component_field_value entity_id component_name field with
  | none => simp [Database.increment_component_field, h]
  | some v =>
    simp only [Database.increment_component_field, h]
    exact update_next_id db entity_id component_name field (v.add value)

theorem foldl_attach_entities (entity_id : Int) (cs : List (String × Component))
    (d : Database) :
    (cs.foldl (fun d p => d.add_component_to_entity entity_id p.1 p.2) d).entities
      = d.entities := by
  induction cs generalizing d with
  | nil => rfl
  | cons p rest ih =>
    rw [List.foldl_cons, ih, attach_entities]

theorem foldl_attach_next_id (entity_id : Int) (cs : List (String × Component))
    (d : Database) :
    (cs.foldl (fun d p => d.add_component_to_entity entity_id p.1 p.2) d).next_id
      = d.next_id := by
  induction cs generalizing d with
  | nil => rfl
  | cons p rest ih =>
    rw [List.foldl_cons, ih, attach_next_id]

/-! ### Characterisation of the query fold and the `get_entity` scan -/

theorem queryStep_none (db : Database) (acc : List Int) (n : String)
    (h : lookupA db.components n = none) : queryStep db acc n = [] := by
  simp [queryStep, h]

theorem queryStep_some (db : Database) (acc : List Int) (n : String)
    (inner : List (Int × Component)) (h : lookupA db.components n = some inner) :
    queryStep db acc n = acc.filter (fun id => (lookupA inner id).isSome) := by
  simp [queryStep, h]

theorem foldl_queryStep (db : Database) (names : List String) :
    ∀ acc : List Int,
    names.foldl (queryStep db) acc =
      if names.all (fun n => (lookupA db.components n).isSome)
      then acc.filter (fun id =>
        names.all (fun n => (lookupA ((lookupA db.components n).getD []) id).isSome))
      else [] := by
  induction names with
  | nil =>
    intro acc
    simp
  | cons n ns ih =>
    intro acc
    rw [List.foldl_cons]
    cases h : lookupA db.components n with
    | none =>
      rw [queryStep_none db acc n h, ih]
      simp [List.all_cons, h]
    | some inner =>
      rw [queryStep_some db acc n inner h, ih]
      by_cases hall : ns.all (fun n2 => (lookupA db.components n2).isSome)
      · simp only [hall, if_true, List.all_cons, h, Option.isSome_some, Bool.true_and,
          List.filter_filter]
        simp [Bool.and_comm]
      · simp [hall, List.all_cons, h]

theorem queryIds_eq (db : Database) (names : List String) :
    queryIds db names =
      if names.all (fun n => (lookupA db.components n).isSome)
      then db.entities.dedup.filter (fun id =>
        names.all (fun n => (lookupA ((lookupA db.components n).getD []) id).isSome))
      else [] :=
  foldl_queryStep db names db.entities.dedup

theorem queryIds_subset_entities (db : Database) (names : List String) (x : Int)
    (hx : x ∈ queryIds db names) : x ∈ db.entities := by
  rw [queryIds_eq] at hx
  by_cases hall : names.all (fun n => (lookupA db.components n).isSome)
  · rw [if_pos hall] at hx
    exact List.mem_dedup.mp (List.mem_of_mem_filter hx)
  · rw [if_neg hall] at hx
    simp at hx

theorem lookup_getEntityComponents (entity_id : Int) (l : List (String × List (Int × Component))) :
    ∀ (acc : List (String × Component)) (n : String), (l.map Prod.fst).Nodup →
    lookupA (getEntityComponents entity_id l acc) n =
      match lookupA l n with
      | some inner =>
        match lookupA inner entity_id with
        | some c => some c
        | none => lookupA acc n
      | none => lookupA acc n := by
  induction l with
  | nil =>
    intro acc n _
    simp [getEntityComponents, lookupA]
  | cons p rest ih =>
    intro acc n hnd
    obtain ⟨name1, inner1⟩ := p
    rw [List.map_cons, List.nodup_cons] at hnd
    cases h2 : lookupA inner1 entity_id with
    | some c =>
      rw [show getEntityComponents entity_id ((name1, inner1) :: rest) acc
          = getEntityComponents entity_id rest (insertA acc name1 c) from by
        simp [getEntityComponents, h2]]
      rw [ih (insertA acc name1 c) n hnd.2]
      by_cases hn : name1 = n
      · subst hn
        rw [lookupA_eq_none_of_not_mem rest name1 hnd.1]
        rw [show lookupA ((name1, inner1) :: rest) name1 = some inner1 from by
          simp [lookupA]]
        simp [h2, lookupA_insertA_self]
      · rw [show lookupA ((name1, inner1) :: rest) n = lookupA rest n from by
          simp [lookupA, hn]]
        rw [lookupA_insertA_ne acc name1 n c (Ne.symm hn)]
    | none =>
      rw [show getEntityComponents entity_id ((name1, inner1) :: rest) acc
          = getEntityComponents entity_id rest acc from by
        simp [getEntityComponents, h2]]
      rw [ih acc n hnd.2]
      by_cases hn : name1 = n
      · subst hn
        rw [lookupA_eq_none_of_not_mem rest name1 hnd.1]
        rw [show lookupA ((name1, inner1) :: rest) name1 = some inner1 from by
          simp [lookupA]]
        simp [h2]
      · rw [show lookupA ((name1, inner1) :: rest) n = lookupA rest n from by
          simp [lookupA, hn]]

theorem get_entity_lookup (db : Database) (entity_id : Int) (h : WFcomponents db)
    (n : String) :
    lookupA (db.get_entity entity_id).components n =
      (lookupA db.components n).bind (fun inner => lookupA inner entity_id) := by
  unfold Database.get_entity
  rw [lookup_getEntityComponents entity_id db.components [] n h]
  cases h1 : lookupA db.components n with
  | none => simp [lookupA]
  | some inner =>
    cases h2 : lookupA inner entity_id with
    | none => simp [h2, lookupA]
    | some c => simp [h2]

theorem getEntityComponents_of_absent (entity_id : Int) :
    ∀ (l : List (String × List (Int × Component))) (acc : List (String × Component)),
    (∀ p ∈ l, lookupA p.2 entity_id = none) →
    getEntityComponents entity_id l acc = acc := by
  intro l
  induction l with
  | nil => intro acc _; rfl
  | cons p rest ih =>
    intro acc hall
    obtain ⟨name1, inner1⟩ := p
    have h1 : lookupA inner1 entity_id = none := hall (name1, inner1) (by simp)
    rw [show getEntityComponents entity_id ((name1, inner1) :: rest) acc
        = getEntityComponents entity_id rest acc from by
      simp [getEntityComponents, h1]]
    exact ih acc (fun q hq => hall q (by simp [hq]))

/-! ### Machinery for the reachability claim -/

theorem add_entity_fst (db : Database) (cs : List (String × Component)) :
    (db.add_entity cs).1 = db.next_id := rfl

theorem add_entity_entities (db : Database) (cs : List (String × Component)) :
    ((db.add_entity cs).2).entities = db.entities ++ [db.next_id] := by
  simp [Database.add_entity, foldl_attach_entities]

theorem add_entity_next_id (db : Database) (cs : List (String × Component)) :
    ((db.add_entity cs).2).next_id = wrap64 (db.next_id + 1) := by
  simp [Database.add_entity, foldl_attach_next_id]

theorem wrap64_wrap64 (x : Int) : wrap64 (wrap64 x) = wrap64 x := by
  unfold wrap64
  omega

theorem wrap64_add_left (x y : Int) : wrap64 (wrap64 x + y) = wrap64 (x + y) := by
  unfold wrap64
  omega

theorem wrap64_eq_self (x : Int) (hlo : -9223372036854775808 ≤ x)
    (hhi : x < 9223372036854775808) : wrap64 x = x := by
  unfold wrap64
  omega

theorem idsUpTo_succ (k : Nat) : idsUpTo (k + 1) = idsUpTo k ++ [(k : Int) + 1] := by
  simp [idsUpTo, List.range_succ]

theorem range_map_snoc (acc : List Int) (h3 : acc = idsUpTo acc.length) :
    acc ++ [(acc.length : Int) + 1] = idsUpTo (acc ++ [(acc.length : Int) + 1]).length := by
  rw [List.length_append, List.length_singleton, idsUpTo_succ, ← h3]

theorem runFrom_inv (ops : List Op) :
    ∀ (db : Database) (acc : List Int),
    db.entities = acc →
    db.next_id = (acc.length : Int) + 1 →
    acc = idsUpTo acc.length →
    acc.length + countAdds ops ≤ 9223372036854775806 →
    (runFrom (db, acc) ops).1.entities = (runFrom (db, acc) ops).2 ∧
    (runFrom (db, acc) ops).2 = idsUpTo (runFrom (db, acc) ops).2.length ∧
    (runFrom (db, acc) ops).1.next_id = ((runFrom (db, acc) ops).2.length : Int) + 1 := by
  induction ops with
  | nil =>
    intro db acc h1 h2 h3 _
    exact ⟨h1, h3, h2⟩
  | cons op rest ih =>
    intro db acc h1 h2 h3 hb
    cases op with
    | addEntity cs =>
      have hb2 : acc.length + (countAdds rest + 1) ≤ 9223372036854775806 := hb
      show _ ∧ _ ∧ _
      have hstep : runFrom (db, acc) (Op.addEntity cs :: rest)
          = runFrom ((db.add_entity cs).2, acc ++ [(db.add_entity cs).1]) rest := rfl
      rw [hstep]
      apply ih
      · rw [add_entity_entities, h1, add_entity_fst, h2]
      · rw [add_entity_next_id, h2, add_entity_fst, h2]
        rw [List.length_append, List.length_singleton]
        rw [wrap64_eq_self ((acc.length : Int) + 1 + 1) (by omega) (by omega)]
        push_cast
        ring
      · rw [add_entity_fst, h2]
        exact range_map_snoc acc h3
      · rw [List.length_append, List.length_singleton]
        omega
    | attach id n c =>
      have hstep : runFrom (db, acc) (Op.attach id n c :: rest)
          = runFrom (db.add_component_to_entity id n c, acc) rest := rfl
      rw [hstep]
      apply ih
      · rw [attach_entities, h1]
      · rw [attach_next_id, h2]
      · exact h3
      · exact hb
    | updateField id n f v =>
      have hstep : runFrom (db, acc) (Op.updateField id n f v :: rest)
          = runFrom ((db.update_component_field id n f v).2, acc) rest := rfl
      rw [hstep]
      apply ih
      · rw [update_entities, h1]
      · rw [update_next_id, h2]
      · exact h3
      · exact hb
    | incrementField id n f v =>
      have hstep : runFrom (db, acc) (Op.incrementField id n f v :: rest)
          = runFrom ((db.increment_component_field id n f v).2, acc) rest := rfl
      rw [hstep]
      apply ih
      · rw [increment_entities, h1]
      · rw [increment_next_id, h2]
      · exact h3
      · exact hb

/-- The ids collected by a run of `n` bare `add_entity` calls: starting from
a counter already in the `i64` range, call `i` (0-indexed) returns
`wrap64 (next_id + i)`. -/
theorem replicate_adds (n : Nat) :
    ∀ (db : Database) (acc : List Int),
    db.next_id = wrap64 db.next_id →
    (runFrom (db, acc) (List.replicate n (Op.addEntity []))).2
      = acc ++ (List.range n).map (fun i : Nat => wrap64 (db.next_id + (i : Int))) := by
  induction n with
  | zero =>
    intro db acc _
    simp [runFrom]
  | succ n ih =>
    intro db acc hnorm
    rw [List.replicate_succ]
    have hstep : runFrom (db, acc) (Op.addEntity [] :: List.replicate n (Op.addEntity []))
        = runFrom ((db.add_entity []).2, acc ++ [(db.add_entity []).1])
            (List.replicate n (Op.addEntity [])) := rfl
    rw [hstep]
    have hnext : ((db.add_entity []).2).next_id = wrap64 (db.next_id + 1) :=
      add_entity_next_id db []
    have hnorm2 : ((db.add_entity []).2).next_id = wrap64 ((db.add_entity []).2).next_id := by
      rw [hnext, wrap64_wrap64]
    rw [ih ((db.add_entity []).2) (acc ++ [(db.add_entity []).1]) hnorm2]
    rw [add_entity_fst, hnext, List.append_assoc]
    congr 1
    rw [List.range_succ_eq_map, List.map_cons, List.map_map, List.singleton_append]
    congr 1
    · rw [show ((0 : Nat) : Int) = 0 from rfl, add_zero]
      exact hnorm
    · apply List.map_congr_left
      intro i _
      show wrap64 (wrap64 (db.next_id + 1) + (i : Int)) = wrap64 (db.next_id + ((i + 1 : Nat) : Int))
      rw [wrap64_add_left]
      congr 1
      push_cast
      ring

/-! ### Frame lemmas for field mutation -/

theorem frame_updatedDb (db : Database) (entity_id : Int) (component_name field : String)
    (value : FieldType) (inner : List (Int × Component)) (c : Component)
    (h1 : lookupA db.components component_name = some inner)
    (h2 : lookupA inner entity_id = some c) :
    FrameOnly db (updatedDb db entity_id component_name field value inner c)
      entity_id component_name field := by
  refine ⟨rfl, rfl, ?_, ?_, ?_⟩
  · intro n hn
    exact lookupA_insertA_ne db.components component_name n _ hn
  · intro i hi
    show lookupA ((lookupA (insertA db.components component_name _) component_name).getD []) i
      = _
    rw [lookupA_insertA_self, h1]
    simp only [Option.getD_some]
    exact lookupA_insertA_ne inner entity_id i _ hi
  · intro f2 hf
    rw [get_field_eq, get_field_eq]
    show (lookupA (insertA db.components component_name _) component_name).bind _ = _
    rw [lookupA_insertA_self, h1]
    simp only [Option.some_bind]
    rw [lookupA_insertA_self, h2]
    simp only [Option.some_bind]
    exact lookupA_insertA_ne c.fields field f2 value hf

theorem update_frame_of_success (db : Database) (entity_id : Int)
    (component_name field : String) (value : FieldType)
    (hsucc : (db.update_component_field entity_id component_name field value).1 = true) :
    FrameOnly db (db.update_component_field entity_id component_name field value).2
      entity_id component_name field := by
  cases h1 : lookupA db.components component_name with
  | none =>
    rw [update_fail_outer db entity_id component_name field value h1] at hsucc
    simp at hsucc
  | some inner =>
    cases h2 : lookupA inner entity_id with
    | none =>
      rw [update_fail_inner db entity_id component_name field value inner h1 h2] at hsucc
      simp at hsucc
    | some c =>
      rw [update_success db entity_id component_name field value inner c h1 h2]
      exact frame_updatedDb db entity_id component_name field value inner c h1 h2

/-! ### The claims -/

/-- C1: `get_entities_with_components` returns exactly one entity view per id
of the creation-order list that has an entry in every named category when all
names are registered (for the empty name list, one view per id in the list);
if any requested name has never been registered, the result is empty
regardless of the other names. -/
theorem claim_C1 (db : Database) (names : List String) :
    db.get_entities_with_components names =
      if names.all (fun n => (lookupA db.components n).isSome)
      then (db.entities.dedup.filter (fun id =>
        names.all (fun n =>
          (lookupA ((lookupA db.components n).getD []) id).isSome))).map db.get_entity
      else [] := by
  unfold Database.get_entities_with_components
  rw [queryIds_eq]
  by_cases hall : names.all (fun n => (lookupA db.components n).isSome)
  · rw [if_pos hall, if_pos hall]
  · rw [if_neg hall, if_neg hall]
    rfl

/-- C2 counterexample: on `i64`, `Integer(2^62) + Integer(2^62)` does not
yield `Integer(2^62 + 2^62)` — the sum overflows and wraps to `-2^63`. -/
theorem claim_C2_counterexample :
    FieldType.add (FieldType.Integer 4611686018427387904)
        (FieldType.Integer 4611686018427387904)
      ≠ FieldType.Integer (4611686018427387904 + 4611686018427387904) := by
  decide

/-- C2 (amended): `combine` is total and follows the promotion table, with
the integer sum wrapped to the 64-bit two's-complement range (so it equals
the exact sum whenever that sum fits in `i64`); any combination involving a
`Float` yields a `Float` with the integer operand widened, mixed-kind
combination is order-insensitive in the resulting value, and the concrete
table `Integer(2)+Integer(3) = Integer(5)`, `Integer(2)+Float(1.5) =
Float(3.5)`, `Float(1.5)+Integer(2) = Float(3.5)`,
`Float(1.0)+Float(2.0) = Float(3.0)` holds. -/
theorem claim_C2 :
    (∀ a b : Int, FieldType.add (.Integer a) (.Integer b) = .Integer (wrap64 (a + b))) ∧
    (∀ a b : Int, -9223372036854775808 ≤ a + b → a + b < 9223372036854775808 →
      FieldType.add (.Integer a) (.Integer b) = .Integer (a + b)) ∧
    (∀ (a : Int) (x : ℚ), FieldType.add (.Integer a) (.Float x) = .Float ((a : ℚ) + x)) ∧
    (∀ (a : Int) (x : ℚ), FieldType.add (.Float x) (.Integer a) = .Float (x + (a : ℚ))) ∧
    (∀ x y : ℚ, FieldType.add (.Float x) (.Float y) = .Float (x + y)) ∧
    (∀ (a : Int) (x : ℚ),
      FieldType.add (.Integer a) (.Float x) = FieldType.add (.Float x) (.Integer a)) ∧
    FieldType.add (.Integer 2) (.Integer 3) = .Integer 5 ∧
    FieldType.add (.Integer 2) (.Float (3 / 2)) = .Float (7 / 2) ∧
    FieldType.add (.Float (3 / 2)) (.Integer 2) = .Float (7 / 2) ∧
    FieldType.add (.Float 1) (.Float 2) = .Float 3 := by
  refine ⟨fun a b => rfl, ?_, fun a x => rfl, fun a x => rfl, fun x y => rfl,
    ?_, ?_, ?_, ?_, ?_⟩
  · intro a b hlo hhi
    have hw : wrap64 (a + b) = a + b := by unfold wrap64; omega
    simp [FieldType.add, hw]
  · intro a x
    simp [FieldType.add, Rat.add_comm]
  · decide
  · simp [FieldType.add]
    norm_num
  · simp [FieldType.add]
    norm_num
  · simp [FieldType.add]
    norm_num

/-- C2 witness: the in-range conjunct of the amended claim, applied at
`a = 2`, `b = 3`. -/
theorem claim_C2_witness :
    FieldType.add (.Integer 2) (.Integer 3) = .Integer (2 + 3) :=
  claim_C2.2.1 2 3 (by decide) (by decide)

/-- C3: when `get_component_field_value` is absent, `increment_component_field`
returns `false` and leaves the store unchanged; when the current value is
`v`, it returns `true` and the field now holds `combine(v, delta)` — the
write-back cannot fail once the read succeeded. -/
theorem claim_C3 (db : Database) (entity_id : Int) (component_name field : String)
    (delta : FieldType) :
    (db.get_component_field_value entity_id component_name field = none →
      db.increment_component_field entity_id component_name field delta = (false, db)) ∧
    (∀ v, db.get_component_field_value entity_id component_name field = some v →
      (db.increment_component_field entity_id component_name field delta).1 = true ∧
      ((db.increment_component_field entity_id component_name field delta).2).get_component_field_value
        entity_id component_name field = some (v.add delta)) := by
  constructor
  · intro h
    simp [Database.increment_component_field, h]
  · intro v hv
    have hv2 := hv
    rw [get_field_eq] at hv2
    cases h1 : lookupA db.components component_name with
    | none => rw [h1] at hv2; simp at hv2
    | some inner =>
      rw [h1] at hv2
      simp only [Option.some_bind] at hv2
      cases h2 : lookupA inner entity_id with
      | none => rw [h2] at hv2; simp at hv2
      | some c =>
        rw [h2] at hv2
        simp only [Option.some_bind] at hv2
        have hupd := update_success db entity_id component_name field (v.add delta) inner c h1 h2
        constructor
        · simp [Database.increment_component_field, hv, hupd]
        · simp only [Database.increment_component_field, hv, hupd]
          rw [get_field_eq]
          simp [updatedDb, lookupA_insertA_self]

/-- C3 witness: incrementing the present field `x` of entity 1 succeeds and
combines; incrementing the absent field `q` fails and is a no-op. -/
theorem claim_C3_witness :
    (sampleDb.increment_component_field 1 "position" "x" (FieldType.Float 1)).1 = true ∧
    ((sampleDb.increment_component_field 1 "position" "x" (FieldType.Float 1)).2).get_component_field_value
      1 "position" "x" = some ((FieldType.Float 0).add (FieldType.Float 1)) ∧
    sampleDb.increment_component_field 1 "position" "q" (FieldType.Float 1)
      = (false, sampleDb) :=
  ⟨((claim_C3 sampleDb 1 "position" "x" (FieldType.Float 1)).2 (FieldType.Float 0)
      (by decide)).1,
   ((claim_C3 sampleDb 1 "position" "x" (FieldType.Float 1)).2 (FieldType.Float 0)
      (by decide)).2,
   (claim_C3 sampleDb 1 "position" "q" (FieldType.Float 1)).1 (by decide)⟩

/-- C4: `update_component_field` returns `false` and leaves the store
unchanged when the category is unregistered or the id has no component under
it; otherwise it returns `true` and the field unconditionally holds the new
value afterwards. -/
theorem claim_C4 (db : Database) (entity_id : Int) (component_name field : String)
    (value : FieldType) :
    (lookupA db.components component_name = none →
      db.update_component_field entity_id component_name field value = (false, db)) ∧
    (∀ inner, lookupA db.components component_name = some inner →
      lookupA inner entity_id = none →
      db.update_component_field entity_id component_name field value = (false, db)) ∧
    (∀ inner c, lookupA db.components component_name = some inner →
      lookupA inner entity_id = some c →
      (db.update_component_field entity_id component_name field value).1 = true ∧
      ((db.update_component_field entity_id component_name field value).2).get_component_field_value
        entity_id component_name field = some value) := by
  refine ⟨?_, ?_, ?_⟩
  · intro h1
    exact update_fail_outer db entity_id component_name field value h1
  · intro inner h1 h2
    exact update_fail_inner db entity_id component_name field value inner h1 h2
  · intro inner c h1 h2
    have hupd := update_success db entity_id component_name field value inner c h1 h2
    constructor
    · rw [hupd]
    · rw [hupd]
      rw [get_field_eq]
      simp [updatedDb, lookupA_insertA_self]

/-- C4 witness: updating under the unregistered name `q` fails; updating
entity 2, which has no `position` component, fails; updating the fresh field
`z` of entity 1's `position` component succeeds and stores the value. -/
theorem claim_C4_witness :
    sampleDb.update_component_field 1 "q" "x" (FieldType.Integer 5) = (false, sampleDb) ∧
    sampleDb.update_component_field 2 "position" "x" (FieldType.Integer 5)
      = (false, sampleDb) ∧
    (sampleDb.update_component_field 1 "position" "z" (FieldType.Integer 5)).1 = true ∧
    ((sampleDb.update_component_field 1 "position" "z" (FieldType.Integer 5)).2).get_component_field_value
      1 "position" "z" = some (FieldType.Integer 5) :=
  ⟨(claim_C4 sampleDb 1 "q" "x" (FieldType.Integer 5)).1 (by decide),
   (claim_C4 sampleDb 2 "position" "x" (FieldType.Integer 5)).2.1 [(1, posComp)]
     (by decide) (by decide),
   ((claim_C4 sampleDb 1 "position" "z" (FieldType.Integer 5)).2.2 [(1, posComp)] posComp
     (by decide) (by decide)).1,
   ((claim_C4 sampleDb 1 "position" "z" (FieldType.Integer 5)).2.2 [(1, posComp)] posComp
     (by decide) (by decide)).2⟩

/-- C5: component attachment is first-write-wins — when a component is
already stored under `(component_name, entity_id)`, `add_component_to_entity`
is a complete no-op (the original component with all its fields is retained
and the new one is discarded); when the slot is free, the new component is
stored there. -/
theorem claim_C5 (db : Database) (entity_id : Int) (component_name : String)
    (c2 : Component) :
    (∀ c, lookupA ((lookupA db.components component_name).getD []) entity_id = some c →
      db.add_component_to_entity entity_id component_name c2 = db) ∧
    (lookupA ((lookupA db.components component_name).getD []) entity_id = none →
      lookupA ((lookupA (db.add_component_to_entity entity_id component_name c2).components
        component_name).getD []) entity_id = some c2) := by
  constructor
  · intro c h
    cases h1 : lookupA db.components component_name with
    | none =>
      rw [h1] at h
      simp [lookupA] at h
    | some inner =>
      rw [h1] at h
      simp only [Option.getD_some] at h
      have hins : insertA db.components component_name inner = db.components :=
        insertA_of_lookupA_eq db.components component_name inner h1
      simp [Database.add_component_to_entity, h1, h, hins]
  · intro h
    cases h1 : lookupA db.components component_name with
    | none =>
      rw [h1] at h
      simp only [Database.add_component_to_entity, h1, Option.getD_none]
      rw [lookupA_insertA_self]
      simp only [Option.getD_some]
      rw [show (match lookupA ([] : List (Int × Component)) entity_id with
        | some _ => ([] : List (Int × Component))
        | none => insertA [] entity_id c2) = insertA [] entity_id c2 from rfl]
      exact lookupA_insertA_self [] entity_id c2
    | some inner =>
      rw [h1] at h
      simp only [Option.getD_some] at h
      simp [Database.add_component_to_entity, h1, h, lookupA_insertA_self]

/-- C5 witness: re-attaching under the occupied slot `("position", 1)` is a
no-op; attaching under the free slot `("position", 2)` stores the new
component. -/
theorem claim_C5_witness :
    sampleDb.add_component_to_entity 1 "position" otherComp = sampleDb ∧
    lookupA ((lookupA (sampleDb.add_component_to_entity 2 "position" otherComp).components
      "position").getD []) 2 = some otherComp :=
  ⟨(claim_C5 sampleDb 1 "position" otherComp).1 posComp (by decide),
   (claim_C5 sampleDb 2 "position" otherComp).2 (by decide)⟩

/-- C6: for every id (issued or not), `get_entity` returns a view whose
component map holds, for every category name, exactly the component the
registry stores for the id under that name (a copy), and nothing else; an id
with no entries in any category yields a view with zero components rather
than an error. -/
theorem claim_C6 (db : Database) (entity_id : Int) (h : WFcomponents db) :
    (∀ n, lookupA (db.get_entity entity_id).components n =
      (lookupA db.components n).bind (fun inner => lookupA inner entity_id)) ∧
    ((∀ p ∈ db.components, lookupA p.2 entity_id = none) →
      (db.get_entity entity_id).components = []) := by
  constructor
  · exact fun n => get_entity_lookup db entity_id h n
  · intro hall
    show getEntityComponents entity_id db.components [] = []
    exact getEntityComponents_of_absent entity_id db.components [] hall

/-- C6 witness: entity 1's view agrees with the registry on `"position"`,
and the never-issued id 99 yields a view with zero components. -/
theorem claim_C6_witness :
    lookupA (sampleDb.get_entity 1).components "position" =
      (lookupA sampleDb.components "position").bind (fun inner => lookupA inner 1) ∧
    (sampleDb.get_entity 99).components = [] :=
  ⟨(claim_C6 sampleDb 1 (by decide)).1 "position",
   (claim_C6 sampleDb 99 (by decide)).2 (by decide)⟩

/-- C7 counterexample: after `2^63` `add_entity` calls from the initial
store, the creation-order list is not `1, 2, …, k` — the `i64` counter wraps,
so the last call returns `-2^63` instead of `2^63`. -/
theorem claim_C7_counterexample :
    ¬ ((run (List.replicate 9223372036854775808 (Op.addEntity []))).2
      = idsUpTo (run (List.replicate 9223372036854775808 (Op.addEntity []))).2.length) := by
  intro h
  have hids : (run (List.replicate 9223372036854775808 (Op.addEntity []))).2
      = (List.range 9223372036854775808).map (fun i : Nat => wrap64 (1 + (i : Int))) := by
    have h0 := replicate_adds 9223372036854775808 initialDb [] (by decide)
    rw [List.nil_append] at h0
    exact h0
  rw [hids, List.length_map, List.length_range] at h
  have hmem : (-9223372036854775808 : Int)
      ∈ (List.range 9223372036854775808).map (fun i : Nat => wrap64 (1 + (i : Int))) := by
    apply List.mem_map.mpr
    refine ⟨9223372036854775807, List.mem_range.mpr (by norm_num), by decide⟩
  rw [h] at hmem
  unfold idsUpTo at hmem
  rcases List.mem_map.mp hmem with ⟨i, _, hi⟩
  omega

/-- C7 (amended): in every store reachable from the initial store by an
operation sequence performing at most `2^63 - 2` entity creations (so the
`i64` counter never wraps), the creation-order list is exactly the sequence
of ids returned by `add_entity` in call order, that sequence is
`1, 2, …, k`, and the counter stands at `k + 1`. -/
theorem claim_C7 (ops : List Op) (h : countAdds ops ≤ 9223372036854775806) :
    (run ops).1.entities = (run ops).2 ∧
    (run ops).2 = idsUpTo (run ops).2.length ∧
    (run ops).1.next_id = ((run ops).2.length : Int) + 1 :=
  runFrom_inv ops initialDb [] rfl (by decide) rfl (by simpa using h)

/-- C7 witness: a concrete two-creation run (the demonstration driver's
sequence) satisfies the bound and yields ids 1, 2 in order with the counter
at 3. -/
theorem claim_C7_witness :
    (run [Op.addEntity [("position", posComp)], Op.addEntity []]).1.entities
      = (run [Op.addEntity [("position", posComp)], Op.addEntity []]).2 ∧
    (run [Op.addEntity [("position", posComp)], Op.addEntity []]).2
      = idsUpTo (run [Op.addEntity [("position", posComp)], Op.addEntity []]).2.length ∧
    (run [Op.addEntity [("position", posComp)], Op.addEntity []]).1.next_id
      = ((run [Op.addEntity [("position", posComp)], Op.addEntity []]).2.length : Int) + 1 :=
  claim_C7 [Op.addEntity [("position", posComp)], Op.addEntity []] (by decide)

/-- C8: `attach_component` accepts an id never returned by `add_entity`: the
component is stored and visible through `get_field`, `get_entity` and
`update_field`, but the id is not added to the creation-order list, so the
candidate sets of `get_entities_with_components` never contain it — not even
for the empty name list. -/
theorem claim_C8 (db : Database) (entity_id : Int) (component_name : String)
    (c : Component) (hWF : WFcomponents db)
    (hslot : lookupA ((lookupA db.components component_name).getD []) entity_id = none)
    (hid : entity_id ∉ db.entities) :
    ((db.add_component_to_entity entity_id component_name c).entities = db.entities) ∧
    (∀ f, (db.add_component_to_entity entity_id component_name c).get_component_field_value
        entity_id component_name f = lookupA c.fields f) ∧
    (lookupA ((db.add_component_to_entity entity_id component_name c).get_entity
        entity_id).components component_name = some c) ∧
    (∀ f v, ((db.add_component_to_entity entity_id component_name c).update_component_field
        entity_id component_name f v).1 = true) ∧
    (∀ names, entity_id ∉ queryIds (db.add_component_to_entity entity_id component_name c)
        names) := by
  have key : ∃ inner2,
      lookupA (db.add_component_to_entity entity_id component_name c).components
        component_name = some inner2 ∧ lookupA inner2 entity_id = some c := by
    cases h1 : lookupA db.components component_name with
    | none =>
      refine ⟨insertA [] entity_id c, ?_, lookupA_insertA_self [] entity_id c⟩
      simp only [Database.add_component_to_entity, h1, Option.getD_none]
      rw [show (match lookupA ([] : List (Int × Component)) entity_id with
        | some _ => ([] : List (Int × Component))
        | none => insertA [] entity_id c) = insertA [] entity_id c from rfl]
      exact lookupA_insertA_self db.components component_name (insertA [] entity_id c)
    | some inner =>
      rw [h1] at hslot
      simp only [Option.getD_some] at hslot
      refine ⟨insertA inner entity_id c, ?_, lookupA_insertA_self inner entity_id c⟩
      simp only [Database.add_component_to_entity, h1, Option.getD_some, hslot]
      exact lookupA_insertA_self db.components component_name (insertA inner entity_id c)
  obtain ⟨inner2, hk1, hk2⟩ := key
  have hWF2 : WFcomponents (db.add_component_to_entity entity_id component_name c) := by
    unfold WFcomponents at hWF ⊢
    exact nodup_fst_insertA db.components component_name _ hWF
  refine ⟨rfl, ?_, ?_, ?_, ?_⟩
  · intro f
    rw [get_field_eq, hk1]
    simp [hk2]
  · rw [get_entity_lookup _ entity_id hWF2 component_name, hk1]
    simp [hk2]
  · intro f v
    rw [update_success _ entity_id component_name f v inner2 c hk1 hk2]
  · intro names hmem
    have hsub := queryIds_subset_entities
      (db.add_component_to_entity entity_id component_name c) names entity_id hmem
    rw [attach_entities] at hsub
    exact hid hsub

/-- C8 witness: attaching `otherComp` under the never-issued id 7 makes it
visible through the three read/write paths, leaves the creation-order list
alone, and the query candidate sets for `[]` and `["position"]` avoid id 7. -/
theorem claim_C8_witness :
    ((sampleDb.add_component_to_entity 7 "position" otherComp).entities
      = sampleDb.entities) ∧
    (sampleDb.add_component_to_entity 7 "position" otherComp).get_component_field_value
      7 "position" "x" = lookupA otherComp.fields "x" ∧
    lookupA ((sampleDb.add_component_to_entity 7 "position" otherComp).get_entity
      7).components "position" = some otherComp ∧
    ((sampleDb.add_component_to_entity 7 "position" otherComp).update_component_field
      7 "position" "x" (FieldType.Integer 1)).1 = true ∧
    (7 : Int) ∉ queryIds (sampleDb.add_component_to_entity 7 "position" otherComp) [] ∧
    (7 : Int) ∉ queryIds (sampleDb.add_component_to_entity 7 "position" otherComp)
      ["position"] :=
  ⟨(claim_C8 sampleDb 7 "position" otherComp (by decide) (by decide) (by decide)).1,
   (claim_C8 sampleDb 7 "position" otherComp (by decide) (by decide) (by decide)).2.1 "x",
   (claim_C8 sampleDb 7 "position" otherComp (by decide) (by decide) (by decide)).2.2.1,
   (claim_C8 sampleDb 7 "position" otherComp (by decide) (by decide) (by decide)).2.2.2.1
     "x" (FieldType.Integer 1),
   (claim_C8 sampleDb 7 "position" otherComp (by decide) (by decide) (by decide)).2.2.2.2 [],
   (claim_C8 sampleDb 7 "position" otherComp (by decide) (by decide) (by decide)).2.2.2.2
     ["position"]⟩

/-- C9: query monotonicity — appending one more name to the requested list
can only shrink the candidate id set. -/
theorem claim_C9 (db : Database) (L : List String) (n : String) (x : Int)
    (hx : x ∈ queryIds db (L ++ [n])) : x ∈ queryIds db L := by
  rw [queryIds_eq] at hx ⊢
  by_cases hallL : L.all (fun m => (lookupA db.components m).isSome)
  · rw [if_pos hallL]
    by_cases hallFull : (L ++ [n]).all (fun m => (lookupA db.components m).isSome)
    · rw [if_pos hallFull] at hx
      rcases List.mem_filter.mp hx with ⟨hmem, hpred⟩
      refine List.mem_filter.mpr ⟨hmem, ?_⟩
      rw [List.all_append] at hpred
      exact (Bool.and_eq_true_iff.mp hpred).1
    · rw [if_neg hallFull] at hx
      simp at hx
  · have hfull : ¬ (L ++ [n]).all (fun m => (lookupA db.components m).isSome) = true := by
      rw [List.all_append]
      intro hc
      exact hallL (Bool.and_eq_true_iff.mp hc).1
    rw [if_neg hfull] at hx
    simp at hx

/-- C9 witness: with premise `1 ∈ queryIds sampleDb ["position"]` (the list
`[] ++ ["position"]`), monotonicity puts 1 in the candidates of `[]`. -/
theorem claim_C9_witness : (1 : Int) ∈ queryIds sampleDb [] :=
  claim_C9 sampleDb [] "position" 1 (by decide)

/-- C10: frame property — whenever `update_component_field` returns `true`,
the only change to the store is to that single field of the single component
under `(component_name, entity_id)`: counter, creation-order list, other
categories, other ids of the category and other fields are all unchanged;
and the same holds for a successful `increment_component_field`. -/
theorem claim_C10 (db : Database) (entity_id : Int) (component_name field : String)
    (value : FieldType) :
    ((db.update_component_field entity_id component_name field value).1 = true →
      FrameOnly db (db.update_component_field entity_id component_name field value).2
        entity_id component_name field) ∧
    ((db.increment_component_field entity_id component_name field value).1 = true →
      FrameOnly db (db.increment_component_field entity_id component_name field value).2
        entity_id component_name field) := by
  constructor
  · exact update_frame_of_success db entity_id component_name field value
  · intro hsucc
    cases hg : db.get_component_field_value entity_id component_name field with
    | none => simp [Database.increment_component_field, hg] at hsucc
    | some v =>
      have heq : db.increment_component_field entity_id component_name field value
          = db.update_component_field entity_id component_name field (v.add value) := by
        simp [Database.increment_component_field, hg]
      rw [heq] at hsucc ⊢
      exact update_frame_of_success db entity_id component_name field (v.add value) hsucc

/-- C10 witness: a successful update of field `x` of entity 1's `position`
component leaves the counter, an unrelated category lookup and (after a
successful increment) the sibling field `y` untouched. -/
theorem claim_C10_witness :
    ((sampleDb.update_component_field 1 "position" "x" (FieldType.Integer 5)).2).next_id
      = sampleDb.next_id ∧
    lookupA ((sampleDb.update_component_field 1 "position" "x"
      (FieldType.Integer 5)).2).components "other" = lookupA sampleDb.components "other" ∧
    ((sampleDb.increment_component_field 1 "position" "x"
      (FieldType.Float 1)).2).get_component_field_value 1 "position" "y"
      = sampleDb.get_component_field_value 1 "position" "y" := by
  obtain ⟨ha1, _, ha3, _, _⟩ :=
    (claim_C10 sampleDb 1 "position" "x" (FieldType.Integer 5)).1 (by decide)
  obtain ⟨_, _, _, _, hb5⟩ :=
    (claim_C10 sampleDb 1 "position" "x" (FieldType.Float 1)).2 (by decide)
  exact ⟨ha1, ha3 "other" (by decide), hb5 "y" (by decide)⟩

end EcsDb
